import Mathlib

/-!
Verification of the layered configuration reader in `gully.py`.

The embedding follows the source closely:

* Runtime values a provider can hand back are a tagged union `PyVal`
  over the kinds the source dispatches on (`str`, `bool`, `int`, other).
* Exceptions are an explicit error type `PyErr`; a function that can raise
  returns `Except PyErr _`.
* The filesystem is a partial map from paths to the list of lines of the
  file stored there (`none` models `os.path.exists` returning false).
* Python dicts over string keys are association lists with
  overwrite-in-place assignment, preserving insertion order.
* A provider, as seen by `VariableReader.get`, is its lookup behaviour
  `String → Option PyVal`, where `none` models its `get` raising `KeyError`.
-/

deriving instance DecidableEq for Except

/-- Runtime values that can flow out of a provider or be produced by a type
coercion.  Mirrors the runtime kinds the source dispatches on with
`isinstance` (`str`, `bool`, `int`); `vother r` stands for a value of any
other runtime type (for example a float), carrying as `r` the string that
`str()` would render it as. -/
inductive PyVal where
  | vstr (s : String)
  | vbool (b : Bool)
  | vint (n : Int)
  | vother (r : String)
  deriving DecidableEq

/-- Exceptions raised by the source. -/
inductive PyErr where
  /-- Bare `raise KeyError` inside a provider's `get` (the spec's per-provider
  `NotFound` signal). -/
  | notFound
  /-- The `raise KeyError(key)` in `VariableReader.get` when no provider
  matched and no default was supplied (the spec's user-visible `KeyNotFound`). -/
  | keyNotFound (key : String)
  /-- The `ValueError` from unpacking `line.strip().split('=', 1)` into two
  names when the line holds no `=`. -/
  | valueError
  /-- The `TypeError` raised by `value_to_bool` on an unsupported type, and by
  `int()` on a non-numeric object. -/
  | typeError
  /-- The `Exception(f"File does not exist: {path}")` raised by
  `EnvFileProvider.__init__` (the spec's `ConfigError`). -/
  | configError (path : String)
  deriving DecidableEq

/-- Result of a reader call.  `base v` is an ordinary value; `closure` is the
function object `lambda v: callback(t(v))` that the conditional lambda in
`__typed_get` returns unapplied when a caller callback is supplied (the
source's lambda parses as one conditional expression whose else-branch is
itself a lambda). -/
inductive RVal where
  | base (v : PyVal)
  | closure
  deriving DecidableEq

/-- The characters Python's `str.strip()` removes (the ASCII whitespace
set: space, tab, newline, carriage return, vertical tab, form feed). -/
def pyspace (c : Char) : Bool :=
  [' ', '\t', '\n', '\r', '\x0b', '\x0c'].contains c

/-- Python `s.strip()`: drop leading and trailing whitespace. -/
def pstrip (s : String) : String :=
  String.mk (((s.data.dropWhile pyspace).reverse.dropWhile pyspace).reverse)

/-- Python `s.lower()` on the ASCII letters the source's boolean table
needs: map each uppercase ASCII letter to its lowercase form. -/
def plower (s : String) : String :=
  String.mk (s.data.map (fun c =>
    if 'A' ≤ c ∧ c ≤ 'Z' then Char.ofNat (c.toNat + 32) else c))

/-- Python `s.startswith(pre)`. -/
def pstartswith (s pre : String) : Bool :=
  pre.data.isPrefixOf s.data

/-- Python-dict assignment `d[k] = v` on an association list: overwrite in
place when the key is present (keeping insertion order), append otherwise. -/
def dictInsert (d : List (String × String)) (k v : String) :
    List (String × String) :=
  if d.any (fun p => p.1 == k) then
    d.map (fun p => if p.1 == k then (p.1, v) else p)
  else
    d ++ [(k, v)]

/-- Python-dict lookup `d[k]` / `k in d`, as an option. -/
def dictGet (d : List (String × String)) (k : String) : Option String :=
  (d.find? (fun p => p.1 == k)).map (fun p => p.2)

/-- Split a character list at the first occurrence of the character `c`;
`none` when `c` does not occur. -/
def splitFirstAux (c : Char) : List Char → Option (List Char × List Char)
  | [] => none
  | x :: xs =>
    if x = c then some ([], xs)
    else
      match splitFirstAux c xs with
      | some (k, v) => some (x :: k, v)
      | none => none

/-- Model of `s.split('=', 1)` unpacked into exactly two names `key, value`:
the part before the first `=` and the part after it, or a failure (Python's
`ValueError`) when the string holds no `=`. -/
def splitFirstEq (s : String) : Option (String × String) :=
  match splitFirstAux '=' s.data with
  | some (k, v) => some (String.mk k, String.mk v)
  | none => none

/-- Options sub-mapping recognised by the file provider; `none` models the
key being absent from the dict, so that `options.get('path', '.env')` and
`options.get('require_file', False)` see their defaults. -/
structure FileOptions where
  path : Option String
  require_file : Option Bool

/-- State of a constructed `EnvFileProvider`: the resolved path and the
cached `values` mapping built at construction. -/
structure EnvFileProvider where
  path : String
  values : List (String × String)
  deriving DecidableEq

/-- One iteration of the parsing loop in `EnvFileProvider._read_file`: skip
the line when it starts with `#` (tested on the raw line) or is blank after
stripping; otherwise strip it, split it on the first `=` (a line without `=`
raises `ValueError` from the unpacking), strip key and value and assign
`vars[key] = value`. -/
def parse_env_line (vars : List (String × String)) (line : String) :
    Except PyErr (List (String × String)) :=
  if pstartswith line "#" || pstrip line == "" then
    .ok vars
  else
    match splitFirstEq (pstrip line) with
    | some (key, value) => .ok (dictInsert vars (pstrip key) (pstrip value))
    | none => .error .valueError

/-- The loop of `EnvFileProvider._read_file` over the lines of the file.
Each line is given without its trailing newline, to which neither the `#`
test nor `strip` is sensitive. -/
def read_env_file (vars : List (String × String)) :
    List String → Except PyErr (List (String × String))
  | [] => .ok vars
  | line :: rest =>
    match parse_env_line vars line with
    | .ok vs => read_env_file vs rest
    | .error e => .error e

/-- `EnvFileProvider.__init__`: resolve `path` with default `.env`; when no
file exists there, raise the config error exactly when `require_file` was
set (default false), else keep the empty mapping; when the file exists,
parse it once into the cache. -/
def EnvFileProvider.init (options : FileOptions)
    (fs : String → Option (List String)) : Except PyErr EnvFileProvider :=
  match fs (options.path.getD ".env") with
  | none =>
    if options.require_file.getD false then
      .error (.configError (options.path.getD ".env"))
    else
      .ok ⟨options.path.getD ".env", []⟩
  | some lines =>
    (read_env_file [] lines).map (fun vs => ⟨options.path.getD ".env", vs⟩)

/-- `EnvFileProvider.get`: look the key up in the cached `self.values`,
raising `KeyError` when absent. -/
def EnvFileProvider.get (p : EnvFileProvider) (key : String) :
    Except PyErr String :=
  match dictGet p.values key with
  | some v => .ok v
  | none => .error .notFound

/-- The provider's `get` as observed against the filesystem state current at
call time: the source's `get` consults only the cached `self.values`, so the
filesystem argument is unused — the file is never re-read after
construction. -/
def EnvFileProvider.getAt (p : EnvFileProvider)
    (_fs : String → Option (List String)) (key : String) : Except PyErr String :=
  p.get key

/-- `EnvVariablesProvider.get`: look the key up in the current process
environment (a partial map), raising `KeyError` when absent. -/
def EnvVariablesProvider.get (environ : String → Option String)
    (key : String) : Except PyErr String :=
  match environ key with
  | some v => .ok v
  | none => .error .notFound

/-- The reader: the ordered list of providers built at construction, each
modelled by its lookup behaviour (`none` models that provider's `get`
raising `KeyError`). -/
structure VariableReader where
  providers : List (String → Option PyVal)

/-- The provider loop of `VariableReader.get`: call the providers in order;
a `KeyError` falls through to the next provider, the first success stops the
iteration.  `none` means every provider raised, leaving `value` equal to the
`_empty` sentinel. -/
def firstFound (providers : List (String → Option PyVal)) (key : String) :
    Option PyVal :=
  match providers with
  | [] => none
  | p :: rest =>
    match p key with
    | some v => some v
    | none => firstFound rest key

/-- `VariableReader.get`: run the provider loop; when no value was found,
return the default if one was supplied and otherwise raise `KeyError(key)`;
when a value was found, apply the callback to it when one was supplied. -/
def VariableReader.get (r : VariableReader) (key : String)
    (default : Option RVal) (callback : Option (PyVal → Except PyErr RVal)) :
    Except PyErr RVal :=
  match firstFound r.providers key with
  | none =>
    match default with
    | none => .error (.keyNotFound key)
    | some d => .ok d
  | some v =>
    match callback with
    | none => .ok (.base v)
    | some cb => cb v

/-- The private `VariableReader.__typed_get`: delegate to `get`, passing as
callback the source's single conditional lambda.  Applying that lambda to
the found value yields the coerced value `t v` when no caller callback was
supplied, and otherwise yields — unapplied, as a function object — the inner
lambda `lambda v: callback(t(v))`. -/
def VariableReader.typed_get (r : VariableReader) (key : String)
    (default : Option RVal) (callback : Option (PyVal → PyVal))
    (t : PyVal → Except PyErr PyVal) : Except PyErr RVal :=
  r.get key default (some (fun v =>
    match callback with
    | none => (t v).map RVal.base
    | some _ => .ok RVal.closure))

/-- The static `VariableReader.value_to_bool`, dispatching on the runtime
kind of the value in the source's `isinstance` order (strings first, then
booleans — checked before integers, as in the source — then integers). -/
def VariableReader.value_to_bool : PyVal → Except PyErr Bool
  | .vstr s => .ok (["y", "yes", "true", "1"].contains (plower s))
  | .vbool b => .ok b
  | .vint n => .ok (n == 1)
  | .vother _ => .error .typeError

/-- Builtin `str` applied to a provider value, as the `str` accessor passes
it for the coercion. -/
def pystr : PyVal → Except PyErr PyVal
  | .vstr s => .ok (.vstr s)
  | .vbool b => .ok (.vstr (if b then "True" else "False"))
  | .vint n => .ok (.vstr (toString n))
  | .vother r => .ok (.vstr r)

/-- Builtin `int` applied to a provider value, as the `int` accessor passes
it for the coercion: parse a decimal string (`ValueError` otherwise), map a
boolean to 0 or 1, pass an integer through, reject a non-numeric object. -/
def pyint : PyVal → Except PyErr PyVal
  | .vstr s =>
    match (pstrip s).toInt? with
    | some n => .ok (.vint n)
    | none => .error .valueError
  | .vbool b => .ok (.vint (if b then 1 else 0))
  | .vint n => .ok (.vint n)
  | .vother _ => .error .typeError

/-- The `bool` accessor: `__typed_get` with `value_to_bool` as coercion. -/
def VariableReader.bool (r : VariableReader) (key : String)
    (default : Option RVal) (callback : Option (PyVal → PyVal)) :
    Except PyErr RVal :=
  r.typed_get key default callback
    (fun v => (VariableReader.value_to_bool v).map PyVal.vbool)

/-- The `str` accessor: `__typed_get` with builtin `str` as coercion. -/
def VariableReader.str (r : VariableReader) (key : String)
    (default : Option RVal) (callback : Option (PyVal → PyVal)) :
    Except PyErr RVal :=
  r.typed_get key default callback pystr

/-- The `int` accessor: `__typed_get` with builtin `int` as coercion. -/
def VariableReader.int (r : VariableReader) (key : String)
    (default : Option RVal) (callback : Option (PyVal → PyVal)) :
    Except PyErr RVal :=
  r.typed_get key default callback pyint

/-! ## Helper lemmas -/

/-- When every provider raises `KeyError` on the key, the provider loop
finds nothing. -/
theorem firstFound_eq_none {ps : List (String → Option PyVal)} {key : String}
    (h : ∀ p ∈ ps, p key = none) : firstFound ps key = none := by
  induction ps with
  | nil => rfl
  | cons p rest ih =>
    have hp : p key = none := h p (List.mem_cons_self p rest)
    have hr : ∀ q ∈ rest, q key = none :=
      fun q hq => h q (List.mem_cons_of_mem p hq)
    simp [firstFound, hp, ih hr]

/-- Splitting at a character that does not occur fails. -/
theorem splitFirstAux_eq_none {c : Char} {cs : List Char} (h : c ∉ cs) :
    splitFirstAux c cs = none := by
  induction cs with
  | nil => rfl
  | cons x xs ih =>
    have hx : ¬ x = c := fun hxc => h (hxc ▸ List.mem_cons_self x xs)
    have hxs : c ∉ xs := fun hc => h (List.mem_cons_of_mem x hc)
    simp [splitFirstAux, hx, ih hxs]

/-- The parsing loop over `xs ++ ys` is the loop over `xs` followed, when it
succeeded, by the loop over `ys` from the accumulated mapping. -/
theorem read_env_file_append (acc : List (String × String))
    (xs ys : List String) :
    read_env_file acc (xs ++ ys)
      = match read_env_file acc xs with
        | .ok d => read_env_file d ys
        | .error e => .error e := by
  induction xs generalizing acc with
  | nil => rfl
  | cons x rest ih =>
    cases h : parse_env_line acc x with
    | ok vs => simp [read_env_file, h, ih vs]
    | error e => simp [read_env_file, h]

/-- Looking a key up right after assigning it yields the assigned value. -/
theorem dictGet_dictInsert_self (d : List (String × String)) (k v : String) :
    dictGet (dictInsert d k v) k = some v := by
  by_cases h : d.any (fun p => p.1 == k)
  · simp only [dictInsert, h, if_true]
    induction d with
    | nil => simp at h
    | cons p rest ih =>
      by_cases hp : p.1 == k
      · simp [dictGet, List.find?, hp]
      · have hrest : rest.any (fun p => p.1 == k) := by
          simpa [List.any_cons, hp] using h
        simpa [dictGet, List.find?, hp] using ih hrest
  · simp only [dictInsert, h, if_false]
    induction d with
    | nil => simp [dictGet, List.find?]
    | cons p rest ih =>
      have hp : (p.1 == k) = false := by
        by_contra hc
        exact h (by simp [List.any_cons, eq_true_of_ne_false hc])
      have hrest : ¬ rest.any (fun p => p.1 == k) := by
        intro hc; exact h (by simp [List.any_cons, hc])
      simpa [dictGet, List.find?, hp] using ih hrest

/-- The overwrite-in-place branch of the dict assignment leaves the lookup
of a different key unchanged. -/
theorem dictGet_map_overwrite (k v k0 : String) (h : (k == k0) = false)
    (d : List (String × String)) :
    dictGet (d.map (fun p => if p.1 == k then (p.1, v) else p)) k0
      = dictGet d k0 := by
  induction d with
  | nil => rfl
  | cons p rest ih =>
    by_cases hp : (p.1 == k) = true
    · have hp0 : (p.1 == k0) = false := by rw [eq_of_beq hp]; exact h
      simpa [dictGet, List.find?, hp, hp0] using ih
    · by_cases hp0 : (p.1 == k0) = true
      · simp [dictGet, List.find?, hp, hp0]
      · simpa [dictGet, List.find?, hp, hp0] using ih

/-- The append branch of the dict assignment leaves the lookup of a
different key unchanged. -/
theorem dictGet_append_single (k v k0 : String) (h : (k == k0) = false)
    (d : List (String × String)) :
    dictGet (d ++ [(k, v)]) k0 = dictGet d k0 := by
  induction d with
  | nil => simp [dictGet, List.find?, h]
  | cons p rest ih =>
    by_cases hp0 : (p.1 == k0) = true
    · simp [dictGet, List.find?, hp0]
    · simp [dictGet, List.find?, hp0, h, ih]

/-- Assigning one key leaves the lookup of a different key unchanged,
whichever branch of the dict assignment runs. -/
theorem dictGet_dictInsert_ne (d : List (String × String)) (k v k0 : String)
    (h : (k == k0) = false) :
    dictGet (dictInsert d k v) k0 = dictGet d k0 := by
  unfold dictInsert
  by_cases hany : d.any (fun p => p.1 == k)
  · rw [if_pos hany]
    exact dictGet_map_overwrite k v k0 h d
  · rw [if_neg hany]
    exact dictGet_append_single k v k0 h d

/-- A run of the parsing loop in which no line stores an entry under the
stripped key `k0` leaves the lookup of `k0` unchanged: every line is either
skipped or assigns a different key. -/
theorem read_env_file_preserves (k0 : String) :
    ∀ ls : List String,
      (∀ x ∈ ls, ∀ k v, pstartswith x "#" = false → pstrip x ≠ "" →
        splitFirstEq (pstrip x) = some (k, v) → pstrip k ≠ k0) →
      ∀ acc d, read_env_file acc ls = .ok d →
        dictGet d k0 = dictGet acc k0 := by
  intro ls
  induction ls with
  | nil =>
    intro _ acc d h
    simp only [read_env_file, Except.ok.injEq] at h
    rw [h]
  | cons x rest ih =>
    intro hsafe acc d h
    cases hx : parse_env_line acc x with
    | error e => simp [read_env_file, hx] at h
    | ok acc2 =>
      simp only [read_env_file, hx] at h
      have hrest := ih (fun y hy => hsafe y (List.mem_cons_of_mem x hy)) acc2 d h
      have hstep : dictGet acc2 k0 = dictGet acc k0 := by
        unfold parse_env_line at hx
        by_cases hskip : (pstartswith x "#" || pstrip x == "") = true
        · rw [if_pos hskip] at hx
          simp only [Except.ok.injEq] at hx
          rw [← hx]
        · rw [if_neg hskip] at hx
          simp only [Bool.or_eq_true, not_or, Bool.not_eq_true] at hskip
          have hxb : pstrip x ≠ "" := by simpa using hskip.2
          cases hsp : splitFirstEq (pstrip x) with
          | none => rw [hsp] at hx; cases hx
          | some kv =>
            rw [hsp] at hx
            simp only [Except.ok.injEq] at hx
            have hne : pstrip kv.1 ≠ k0 :=
              hsafe x (List.mem_cons_self x rest) kv.1 kv.2 hskip.1 hxb
                (by rw [hsp])
            rw [← hx]
            exact dictGet_dictInsert_ne acc (pstrip kv.1) (pstrip kv.2) k0
              (beq_eq_false_iff_ne.mpr hne)
      rw [hrest, hstep]

/-! ## Claims -/

/-- C1 (refuting theorem): with a caller-supplied callback, each typed
accessor returns the unapplied inner lambda — a function object — rather
than `callback(coercion(value))`: the conditional lambda in `__typed_get`
parses as a single lambda whose else-branch produces another lambda. -/
theorem typed_accessor_with_callback_returns_closure :
    ∀ cb : PyVal → PyVal,
      (VariableReader.mk [fun k => if k == "K" then some (.vstr "1") else none]).int
          "K" none (some cb) = .ok .closure
      ∧ (VariableReader.mk [fun k => if k == "K" then some (.vstr "1") else none]).str
          "K" none (some cb) = .ok .closure
      ∧ (VariableReader.mk [fun k => if k == "K" then some (.vstr "1") else none]).bool
          "K" none (some cb) = .ok .closure :=
  fun _ => ⟨rfl, rfl, rfl⟩

/-- C2: for a key absent from every provider, `get` without a default raises
`KeyError(key)` whatever the callback; with a default, `get` and each typed
accessor return the default exactly as passed, applying neither the type
coercion nor the callback to it. -/
theorem absent_key_default_semantics (ps : List (String → Option PyVal))
    (key : String) (habs : ∀ p ∈ ps, p key = none) :
    (∀ cb, (VariableReader.mk ps).get key none cb = .error (.keyNotFound key))
    ∧ (∀ d cb, (VariableReader.mk ps).get key (some d) cb = .ok d)
    ∧ (∀ d cb, (VariableReader.mk ps).str key (some d) cb = .ok d)
    ∧ (∀ d cb, (VariableReader.mk ps).int key (some d) cb = .ok d)
    ∧ (∀ d cb, (VariableReader.mk ps).bool key (some d) cb = .ok d) := by
  have h0 : firstFound ps key = none := firstFound_eq_none habs
  refine ⟨?_, ?_, ?_, ?_, ?_⟩ <;> intros <;>
    simp [VariableReader.get, VariableReader.str, VariableReader.int,
      VariableReader.bool, VariableReader.typed_get, h0]

/-- C2 witness: with a single always-raising provider, `get("X")` raises
`KeyError("X")`, and the `int` accessor with default `"5"` returns the
string `"5"` untouched. -/
theorem absent_key_default_semantics_witness :
    (VariableReader.mk [fun _ => none]).get "X" none none
      = .error (.keyNotFound "X")
    ∧ (VariableReader.mk [fun _ => none]).int "X"
        (some (.base (.vstr "5"))) none = .ok (.base (.vstr "5")) := by
  have h := absent_key_default_semantics [fun _ => none] "X"
    (by intro p hp; simp only [List.mem_singleton] at hp; subst hp; rfl)
  exact ⟨h.1 none, h.2.2.2.1 (.base (.vstr "5")) none⟩

/-- C3: providers are queried in construction order and the first success
stops the iteration, earlier `KeyError` failures falling through: whenever
every provider before `p` raises on the key and `p` yields `v`, the reader
resolves the key to `v`, whatever the providers after `p` would answer. -/
theorem earlier_provider_shadows_later (ps₁ ps₂ : List (String → Option PyVal))
    (p : String → Option PyVal) (key : String) (v : PyVal)
    (h₁ : ∀ q ∈ ps₁, q key = none) (h₂ : p key = some v) :
    firstFound (ps₁ ++ p :: ps₂) key = some v
    ∧ (VariableReader.mk (ps₁ ++ p :: ps₂)).get key none none
      = .ok (.base v) := by
  have hf : firstFound (ps₁ ++ p :: ps₂) key = some v := by
    induction ps₁ with
    | nil => simp [firstFound, h₂]
    | cons q rest ih =>
      have hq : q key = none := h₁ q (List.mem_cons_self q rest)
      have hrest := ih (fun r hr => h₁ r (List.mem_cons_of_mem q hr))
      simpa [firstFound, hq] using hrest
  exact ⟨hf, by simp [VariableReader.get, hf]⟩

/-- C3 witness: with no earlier provider, a provider answering `"1"` for
`"A"`, and a later provider that would answer `"2"` for every key, the
reader resolves `"A"` to `"1"`. -/
theorem earlier_provider_shadows_later_witness :
    firstFound ([] ++ (fun k => if k == "A" then some (.vstr "1") else none)
        :: [fun _ => some (.vstr "2")]) "A" = some (.vstr "1")
    ∧ (VariableReader.mk ([] ++ (fun k => if k == "A" then some (.vstr "1") else none)
        :: [fun _ => some (.vstr "2")])).get "A" none none
      = .ok (.base (.vstr "1")) :=
  earlier_provider_shadows_later [] [fun _ => some (.vstr "2")]
    (fun k => if k == "A" then some (.vstr "1") else none) "A" (.vstr "1")
    (by intro q hq; simp at hq) rfl

/-- C4: the boolean coercion maps a string to `true` exactly when its
lowercased form is one of `y`, `yes`, `true`, `1` and never fails on a
string; passes a boolean through; maps an integer to `true` exactly when it
equals 1 and never fails on an integer; and raises `TypeError` on a value of
any other runtime type. -/
theorem value_to_bool_table :
    (∀ s : String,
        (VariableReader.value_to_bool (.vstr s) = .ok true
          ↔ plower s ∈ ["y", "yes", "true", "1"])
        ∧ ∃ b, VariableReader.value_to_bool (.vstr s) = .ok b)
    ∧ (∀ b : Bool, VariableReader.value_to_bool (.vbool b) = .ok b)
    ∧ (∀ n : Int,
        (VariableReader.value_to_bool (.vint n) = .ok true ↔ n = 1)
        ∧ ∃ b, VariableReader.value_to_bool (.vint n) = .ok b)
    ∧ ∀ r : String, VariableReader.value_to_bool (.vother r)
        = .error .typeError := by
  refine ⟨fun s => ⟨?_, ⟨_, rfl⟩⟩, fun b => rfl, fun n => ⟨?_, ⟨_, rfl⟩⟩,
    fun r => rfl⟩
  · simp [VariableReader.value_to_bool, List.elem_iff]
  · simp [VariableReader.value_to_bool]

/-- C4 witness: the coercion at sample inputs of each kind. -/
theorem value_to_bool_table_witness :
    VariableReader.value_to_bool (.vstr "TRUE") = .ok true
    ∧ VariableReader.value_to_bool (.vbool false) = .ok false
    ∧ VariableReader.value_to_bool (.vint 1) = .ok true
    ∧ VariableReader.value_to_bool (.vother "2.5") = .error .typeError :=
  ⟨(value_to_bool_table.1 "TRUE").1.mpr (by decide),
    value_to_bool_table.2.1 false,
    (value_to_bool_table.2.2.1 1).1.mpr rfl,
    value_to_bool_table.2.2.2 "2.5"⟩

/-- C5: when no file exists at the resolved path, construction with
`require_file` set fails with the config error, while construction without
it succeeds with an empty value set, after which every `get` on the
provider raises `KeyError`. -/
theorem missing_file_construction (options : FileOptions)
    (fs : String → Option (List String))
    (habs : fs (options.path.getD ".env") = none) :
    (options.require_file.getD false = true →
      EnvFileProvider.init options fs
        = .error (.configError (options.path.getD ".env")))
    ∧ (options.require_file.getD false = false →
      ∃ p, EnvFileProvider.init options fs = .ok p ∧ p.values = []
        ∧ ∀ key, p.get key = .error .notFound) := by
  constructor
  · intro hreq
    simp [EnvFileProvider.init, habs, hreq]
  · intro hreq
    refine ⟨⟨options.path.getD ".env", []⟩, ?_, rfl, fun key => rfl⟩
    simp [EnvFileProvider.init, habs, hreq]

/-- C5 witness: with an absent file at `/tmp/x.env`, construction requiring
the file fails with the config error and construction not requiring it
yields a provider with an empty cache. -/
theorem missing_file_construction_witness :
    EnvFileProvider.init ⟨some "/tmp/x.env", some true⟩ (fun _ => none)
      = .error (.configError "/tmp/x.env")
    ∧ ∃ p, EnvFileProvider.init ⟨some "/tmp/x.env", some false⟩ (fun _ => none)
        = .ok p ∧ p.values = [] ∧ ∀ key, p.get key = .error .notFound :=
  ⟨(missing_file_construction ⟨some "/tmp/x.env", some true⟩
      (fun _ => none) rfl).1 rfl,
    (missing_file_construction ⟨some "/tmp/x.env", some false⟩
      (fun _ => none) rfl).2 rfl⟩

/-- C6: parsing skips the `#` comment line and the blank line and stores the
`KEY=VALUE` lines with key and value stripped, and a stored key reads back
as its stripped value. -/
theorem file_parsing_round_trip :
    read_env_file [] ["# comment", "", "A=1", "B = 2"]
      = .ok [("A", "1"), ("B", "2")]
    ∧ EnvFileProvider.init ⟨some "/tmp/t.env", none⟩
        (fun q => if q == "/tmp/t.env" then some ["KEY = value  "] else none)
      = .ok ⟨"/tmp/t.env", [("KEY", "value")]⟩
    ∧ EnvFileProvider.get ⟨"/tmp/t.env", [("KEY", "value")]⟩ "KEY"
      = .ok "value" :=
  ⟨by decide, by decide, by decide⟩

/-- A non-comment, non-blank line holding no `=` makes the parsing loop
fail, wherever the line sits and whatever was already accumulated. -/
theorem read_env_file_error_of_bad_line {l : String}
    (hc : pstartswith l "#" = false) (hb : pstrip l ≠ "")
    (he : '=' ∉ (pstrip l).data) :
    ∀ lines : List String, l ∈ lines → ∀ acc,
      ∃ e, read_env_file acc lines = .error e := by
  intro lines
  induction lines with
  | nil => intro h; cases h
  | cons x rest ih =>
    intro hmem acc
    rcases List.mem_cons.mp hmem with hx | hx
    · subst hx
      have hsplit : splitFirstEq (pstrip l) = none := by
        unfold splitFirstEq
        rw [splitFirstAux_eq_none he]
      have hb2 : (pstrip l == "") = false := by
        simpa using hb
      refine ⟨.valueError, ?_⟩
      simp [read_env_file, parse_env_line, hc, hb2, hsplit]
    · cases hpl : parse_env_line acc x with
      | ok acc2 =>
        obtain ⟨e, he2⟩ := ih hx acc2
        exact ⟨e, by simp [read_env_file, hpl, he2]⟩
      | error e => exact ⟨e, by simp [read_env_file, hpl]⟩

/-- C7: when the backing file exists and holds a non-blank line that does
not start with `#` and holds no `=`, constructing the file provider fails
(the malformed line is fatal, not skipped). -/
theorem malformed_line_fails_construction (options : FileOptions)
    (fs : String → Option (List String)) (lines : List String) (l : String)
    (hfs : fs (options.path.getD ".env") = some lines) (hmem : l ∈ lines)
    (hc : pstartswith l "#" = false) (hb : pstrip l ≠ "")
    (he : '=' ∉ (pstrip l).data) :
    ∃ e, EnvFileProvider.init options fs = .error e := by
  obtain ⟨e, herr⟩ := read_env_file_error_of_bad_line hc hb he lines hmem []
  exact ⟨e, by simp [EnvFileProvider.init, hfs, herr, Except.map]⟩

/-- C7 witness: a file whose single line is `FOO` makes construction fail. -/
theorem malformed_line_fails_construction_witness :
    ∃ e, EnvFileProvider.init ⟨none, none⟩
      (fun q => if q == ".env" then some ["FOO"] else none) = .error e :=
  malformed_line_fails_construction ⟨none, none⟩
    (fun q => if q == ".env" then some ["FOO"] else none) ["FOO"] "FOO"
    (by decide) (by decide) (by decide) (by decide) (by decide)

/-- C8: the backing file is read only during construction: a constructed
provider answers every `get` identically against any later filesystem state,
and its cache is exactly the construction-time parse of the
construction-time file contents. -/
theorem file_snapshot_at_construction (options : FileOptions)
    (fs₀ : String → Option (List String)) (p : EnvFileProvider)
    (hinit : EnvFileProvider.init options fs₀ = .ok p) :
    (∀ fs₁ key, p.getAt fs₁ key = p.getAt fs₀ key)
    ∧ ∀ lines, fs₀ (options.path.getD ".env") = some lines →
        read_env_file [] lines = .ok p.values := by
  refine ⟨fun fs₁ key => rfl, ?_⟩
  intro lines hl
  have hini2 : EnvFileProvider.init options fs₀
      = Except.map (fun vs => (⟨options.path.getD ".env", vs⟩ : EnvFileProvider))
          (read_env_file [] lines) := by
    unfold EnvFileProvider.init
    rw [hl]
  rw [hini2] at hinit
  cases hr : read_env_file [] lines with
  | ok vs =>
    rw [hr] at hinit
    simp only [Except.map, Except.ok.injEq] at hinit
    rw [← hinit]
  | error e =>
    rw [hr] at hinit
    simp [Except.map] at hinit

/-- C8 witness: a provider constructed over a file reading `A=1` answers
`get` the same after the file changes to `A=2` on disk, and its cache is the
parse of the original contents. -/
theorem file_snapshot_at_construction_witness :
    (EnvFileProvider.mk ".env" [("A", "1")]).getAt (fun _ => some ["A=2"]) "A"
      = (EnvFileProvider.mk ".env" [("A", "1")]).getAt
          (fun q => if q == ".env" then some ["A=1"] else none) "A"
    ∧ read_env_file [] ["A=1"] = .ok [("A", "1")] :=
  ⟨(file_snapshot_at_construction ⟨none, none⟩
      (fun q => if q == ".env" then some ["A=1"] else none)
      ⟨".env", [("A", "1")]⟩ (by decide)).1 (fun _ => some ["A=2"]) "A",
    (file_snapshot_at_construction ⟨none, none⟩
      (fun q => if q == ".env" then some ["A=1"] else none)
      ⟨".env", [("A", "1")]⟩ (by decide)).2 ["A=1"] (by decide)⟩

/-- C9: the comment test runs on the raw line, so a line with whitespace
before `#` is not skipped: without `=` it fails the parse, with `=` it is
stored under a stripped key that starts with `#`. -/
theorem leading_whitespace_comment_not_skipped :
    read_env_file [] ["  # comment"] = .error .valueError
    ∧ read_env_file [] ["  #A = 1"] = .ok [("#A", "1")]
    ∧ pstartswith "#A" "#" = true :=
  ⟨by decide, by decide, by decide⟩

/-- C10: when a well-formed entry line `l` for a key is the last line of the
file that stores anything under that stripped key — the lines before it are
arbitrary and the lines after it may be anything that is skipped or assigns
other keys — the cache resolves that key to `l`'s value: during the single
construction-time parse, later lines overwrite earlier ones. -/
theorem duplicate_key_last_wins (ls₁ ls₂ : List String) (l k v : String)
    (d : List (String × String))
    (hc : pstartswith l "#" = false) (hb : pstrip l ≠ "")
    (hsplit : splitFirstEq (pstrip l) = some (k, v))
    (hafter : ∀ x ∈ ls₂, ∀ k2 v2, pstartswith x "#" = false → pstrip x ≠ "" →
      splitFirstEq (pstrip x) = some (k2, v2) → pstrip k2 ≠ pstrip k)
    (hok : read_env_file [] (ls₁ ++ l :: ls₂) = .ok d) :
    dictGet d (pstrip k) = some (pstrip v) := by
  rw [read_env_file_append] at hok
  cases hr : read_env_file [] ls₁ with
  | error e =>
    rw [hr] at hok
    simp at hok
  | ok d1 =>
    rw [hr] at hok
    have hb2 : (pstrip l == "") = false := by
      simpa using hb
    have hstep : parse_env_line d1 l
        = .ok (dictInsert d1 (pstrip k) (pstrip v)) := by
      simp [parse_env_line, hc, hb2, hsplit]
    simp only [read_env_file, hstep] at hok
    rw [read_env_file_preserves (pstrip k) ls₂ hafter _ d hok,
      dictGet_dictInsert_self]

/-- C10 witness: a file reading `A=1`, then `A=2`, then `B=3` caches `A` as
`2`, the value of the last line assigning `A`. -/
theorem duplicate_key_last_wins_witness :
    dictGet [("A", "2"), ("B", "3")] "A" = some "2" :=
  duplicate_key_last_wins ["A=1"] ["B=3"] "A=2" "A" "2"
    [("A", "2"), ("B", "3")] (by decide) (by decide) (by decide)
    (by
      intro x hx k2 v2 hc2 hb2 hs2
      simp only [List.mem_singleton] at hx
      subst hx
      have hsp : splitFirstEq (pstrip "B=3") = some ("B", "3") := by decide
      rw [hsp] at hs2
      simp only [Option.some.injEq, Prod.mk.injEq] at hs2
      rw [← hs2.1]
      decide)
    (by decide)
